import Mathlib

/-!
Verification development for the sol-cycle swap service.

The definitions below are a shallow embedding of the Go code in
`service/swap/service.go` (together with the `datatypes.Config` record).
Go `float64` prices and balances are modelled as exact rationals (`ℚ`);
the comparisons the code performs are order comparisons, which the
embedding preserves.  The mutable field `Config.HighestPrice`, which the
Go code updates in place, is threaded explicitly as a state argument and
returned alongside each result.  Logging is dropped; external calls
(price feed, balance reads, the Jupiter executor) are passed in as
explicit arguments or oracles.
-/

namespace SolCycle

/-- The numeric/behavioural fields of `datatypes.Config`
(`internal/datatypes/config.go`, extended variant with the dynamic
stop-loss fields).  String fields (keys, endpoints) play no role in the
core logic and are omitted.  `HighestPrice` is not a field here: being
mutated by `calculateDynamicStopLoss`, it is threaded as explicit state. -/
structure Config where
  StopLossPrice : ℚ
  MinimumSOL : ℚ
  RetryAttempts : ℕ
  RetryDelay : ℕ
  CheckInterval : ℕ
  DynamicStopLoss : Bool
  StopLossAdjustment : ℚ
deriving Repr

/-- Position state from `service/swap/service.go`: which token the
service currently holds (`InSOL` / `InUSDC`). -/
inductive PositionState where
  | InSOL : PositionState
  | InUSDC : PositionState
deriving DecidableEq, Repr

open PositionState

/-- Embedding of `Service.calculateDynamicStopLoss`
(`service/swap/service.go` lines 182-216).  Input: the current value of
the mutable `s.config.HighestPrice` and the current price; output:
(new `HighestPrice`, returned effective stop loss).

Go source shape:
```
if !s.config.DynamicStopLoss { return s.config.StopLossPrice }
if currentPrice > s.config.StopLossPrice+s.config.StopLossAdjustment {
  if s.config.HighestPrice == 0 || currentPrice > s.config.HighestPrice+s.config.StopLossAdjustment {
    s.config.HighestPrice = currentPrice
    return s.config.HighestPrice - s.config.StopLossAdjustment
  }
  if s.config.HighestPrice > s.config.StopLossPrice+s.config.StopLossAdjustment {
    calculatedStopLoss := s.config.HighestPrice - s.config.StopLossAdjustment
    if calculatedStopLoss > s.config.StopLossPrice { return calculatedStopLoss }
  }
}
return s.config.StopLossPrice
```
-/
def calculateDynamicStopLoss (cfg : Config) (highestPrice currentPrice : ℚ) : ℚ × ℚ :=
  if !cfg.DynamicStopLoss then
    (highestPrice, cfg.StopLossPrice)
  else if currentPrice > cfg.StopLossPrice + cfg.StopLossAdjustment then
    if highestPrice = 0 ∨ currentPrice > highestPrice + cfg.StopLossAdjustment then
      (currentPrice, currentPrice - cfg.StopLossAdjustment)
    else if highestPrice > cfg.StopLossPrice + cfg.StopLossAdjustment then
      let calculatedStopLoss := highestPrice - cfg.StopLossAdjustment
      if calculatedStopLoss > cfg.StopLossPrice then
        (highestPrice, calculatedStopLoss)
      else
        (highestPrice, cfg.StopLossPrice)
    else
      (highestPrice, cfg.StopLossPrice)
  else
    (highestPrice, cfg.StopLossPrice)

/-- Running `calculateDynamicStopLoss` over a sequence of observed
prices, collecting the returned effective stop-loss values in order. -/
def runThresholds (cfg : Config) : ℚ → List ℚ → List ℚ
  | _, [] => []
  | hp, p :: ps =>
    let r := calculateDynamicStopLoss cfg hp p
    r.2 :: runThresholds cfg r.1 ps

/-- Running `calculateDynamicStopLoss` over a sequence of observed
prices, returning the final value of the `HighestPrice` state. -/
def runHighest (cfg : Config) : ℚ → List ℚ → ℚ
  | hp, [] => hp
  | hp, p :: ps => runHighest cfg (calculateDynamicStopLoss cfg hp p).1 ps

/-- The action a monitoring cycle can take. -/
inductive SwapAction where
  | noAction : SwapAction
  | swapAtoB : SwapAction
  | swapBtoA : SwapAction
deriving DecidableEq, Repr

/-- The decision logic of `Service.monitorAndSwap`
(`service/swap/service.go` lines 154-176): holding SOL and
`price < effectiveStopLoss` triggers the SOL→USDC swap; holding USDC
and `price > effectiveStopLoss` triggers the USDC→SOL swap; otherwise
the cycle does nothing. -/
def decideSwap (pos : PositionState) (price threshold : ℚ) : SwapAction :=
  if pos = InSOL ∧ price < threshold then
    SwapAction.swapAtoB
  else if pos = InUSDC ∧ price > threshold then
    SwapAction.swapBtoA
  else
    SwapAction.noAction

/-- Observable outcome of one run of the retry loops `swapSOLToUSDC` /
`swapUSDCToSOL` (`service/swap/service.go` lines 291-328):
whether the run ended in success, how many attempts were made, how many
inter-attempt sleeps (`time.Sleep(RetryDelay)`) were performed, and how
many calls reached the external Jupiter executor. -/
structure RetryResult where
  success : Bool
  attempts : ℕ
  sleeps : ℕ
  calls : ℕ
deriving DecidableEq, Repr

/-- Embedding of the retry loop shared by `swapSOLToUSDC` and
`swapUSDCToSOL` (`service/swap/service.go` lines 291-328).  `op a` is
the outcome of the attempt numbered `a` (1-based, matching the Go
`attempt` variable): a success flag together with the number of Jupiter
executor calls that attempt made.  `r` is the number of attempts that
remain (`RetryAttempts - attempt + 1`).

Go source shape:
```
for attempt := 1; attempt <= s.config.RetryAttempts; attempt++ {
  err := s.executeSOLToUSDCSwap()
  if err == nil { return nil }
  if attempt < s.config.RetryAttempts {
    time.Sleep(time.Duration(s.config.RetryDelay) * time.Second)
  }
}
return fmt.Errorf(...)
```
The sleep happens only when further attempts remain (`attempt <
RetryAttempts`), i.e. in the branch where the recursion continues. -/
def retryGo (op : ℕ → Bool × ℕ) : ℕ → ℕ → RetryResult
  | _, 0 => ⟨false, 0, 0, 0⟩
  | a, r + 1 =>
    let (ok, c) := op a
    if ok then
      ⟨true, 1, 0, c⟩
    else if r = 0 then
      ⟨false, 1, 0, c⟩
    else
      let rest := retryGo op (a + 1) r
      ⟨rest.success, rest.attempts + 1, rest.sleeps + 1, rest.calls + c⟩

/-- Variant of `retryGo` carrying an explicit cancellation schedule:
`cancelDuringSleep a = true` means the external cancellation signal
fires while the sleep following attempt `a` is in progress.  The Go
retry loops delay with `time.Sleep`, which never consults the
`context.Context` (the loops do not even receive one), so the schedule
does not influence the control flow; it is recorded here only so that
statements about cancellation behaviour can be made. -/
def retryGoWithCancel (op : ℕ → Bool × ℕ) (cancelDuringSleep : ℕ → Bool) :
    ℕ → ℕ → RetryResult
  | _, 0 => ⟨false, 0, 0, 0⟩
  | a, r + 1 =>
    let (ok, c) := op a
    if ok then
      ⟨true, 1, 0, c⟩
    else if r = 0 then
      ⟨false, 1, 0, c⟩
    else
      let rest := retryGoWithCancel op cancelDuringSleep (a + 1) r
      ⟨rest.success, rest.attempts + 1, rest.sleeps + 1, rest.calls + c⟩

/-- An operation that fails on its first `k` invocations and succeeds
on invocation `k + 1` (invocations numbered starting at 1), making no
external executor calls.  Used to state the retry-policy property. -/
def failsThenSucceeds (k : ℕ) (i : ℕ) : Bool × ℕ :=
  (decide (k < i), 0)

/-- Embedding of `Service.executeSOLToUSDCSwap`
(`service/swap/service.go` lines 331-368).  `solBalanceRes` is the
outcome of the fresh `CheckSolBalance` query; `jupiterOk` tells whether
the Jupiter `Swap` call, if reached, succeeds.  Result: success flag
and number of Jupiter executor calls made.

Go source shape:
```
solBalance, err := s.solanaService.CheckSolBalance(ctx, s.publicKey)
if err != nil { return fmt.Errorf(...) }
swapAmount := solBalance - s.config.MinimumSOL
if swapAmount <= 0 {
  return fmt.Errorf("not enough SOL to swap while maintaining minimum balance")
}
err = s.jupiterSvc.Swap(ctx, SolMint, USDCMint, lamports, 5)
if err != nil { return fmt.Errorf(...) }
return nil
```
-/
def executeSOLToUSDCSwap (cfg : Config) (solBalanceRes : Except Unit ℚ)
    (jupiterOk : Bool) : Bool × ℕ :=
  match solBalanceRes with
  | Except.error _ => (false, 0)
  | Except.ok solBalance =>
    let swapAmount := solBalance - cfg.MinimumSOL
    if swapAmount ≤ 0 then
      (false, 0)
    else if jupiterOk then
      (true, 1)
    else
      (false, 1)

/-- Embedding of `Service.swapSOLToUSDC` (`service/swap/service.go`
lines 291-308): the retry loop around `executeSOLToUSDCSwap`, with a
fresh balance read on every attempt (the Go code re-queries the balance
inside each `executeSOLToUSDCSwap` call). -/
def swapSOLToUSDC (cfg : Config) (solBalanceRes : ℕ → Except Unit ℚ)
    (jupiterOk : ℕ → Bool) : RetryResult :=
  retryGo (fun a => executeSOLToUSDCSwap cfg (solBalanceRes a) (jupiterOk a))
    1 cfg.RetryAttempts

/-- Embedding of one cycle of `Service.monitorAndSwap`
(`service/swap/service.go` lines 140-179), given that the price fetch
succeeded with `price` (on a fetch failure the cycle returns early and
changes nothing).  `opA` / `opB` give the per-attempt outcomes of the
SOL→USDC and USDC→SOL execution attempts (success flag and executor
call count).  Result: (new `HighestPrice` state, new position, whether
the cycle returned an error). -/
def monitorAndSwap (cfg : Config) (hp : ℚ) (pos : PositionState) (price : ℚ)
    (opA opB : ℕ → Bool × ℕ) : ℚ × PositionState × Bool :=
  let r := calculateDynamicStopLoss cfg hp price
  if pos = InSOL ∧ price < r.2 then
    if (retryGo opA 1 cfg.RetryAttempts).success then
      (r.1, InUSDC, false)
    else
      (r.1, pos, true)
  else if pos = InUSDC ∧ price > r.2 then
    if (retryGo opB 1 cfg.RetryAttempts).success then
      (r.1, InSOL, false)
    else
      (r.1, pos, true)
  else
    (r.1, pos, false)

/-- Embedding of `Service.determineCurrentPosition`
(`service/swap/service.go` lines 253-288).  `solRes` is the outcome of
the SOL balance query; `usdcRes` the outcome of
`GetTokenAccountBalance` for the USDC account, whose payload is
`some amount` (raw token units) when `tokenBalance.Value` is non-nil
and `none` otherwise.

Go source shape:
```
solBalance, err := s.solanaService.CheckSolBalance(ctx, s.publicKey)
if err != nil { return "", fmt.Errorf(...) }
tokenBalance, err := s.client.GetTokenAccountBalance(...)
if err != nil { return InSOL, nil }
var usdcBalanceFloat float64
if tokenBalance != nil && tokenBalance.Value != nil {
  usdcBalanceFloat, _ = strconv.ParseFloat(tokenBalance.Value.Amount, 64)
  usdcBalanceFloat = usdcBalanceFloat / 1e6
}
if usdcBalanceFloat > 1.0 { return InUSDC, nil }
return InSOL, nil
```
-/
def determineCurrentPosition (solRes : Except Unit ℚ)
    (usdcRes : Except Unit (Option ℚ)) : Except Unit PositionState :=
  match solRes with
  | Except.error _ => Except.error ()
  | Except.ok _ =>
    match usdcRes with
    | Except.error _ => Except.ok InSOL
    | Except.ok v =>
      let usdcBalanceFloat : ℚ :=
        match v with
        | some amount => amount / 1000000
        | none => 0
      if usdcBalanceFloat > 1 then
        Except.ok InUSDC
      else
        Except.ok InSOL

/-- The threshold-update case analysis exactly as the specification
words it (spec §4.1 / claim C2), to be compared with
`calculateDynamicStopLoss`: disabled → initial threshold, no state
change; not above `initialThreshold + trailGap` → initial threshold;
above it and (`highestPriceSeen = 0` or price beats the recorded high
by more than the gap) → record the price, return `price - trailGap`;
otherwise `max (highestPriceSeen - trailGap) initialThreshold` when
`highestPriceSeen > initialThreshold + trailGap`, else the initial
threshold. -/
def specThresholdUpdate (cfg : Config) (highestPrice currentPrice : ℚ) : ℚ × ℚ :=
  if !cfg.DynamicStopLoss then
    (highestPrice, cfg.StopLossPrice)
  else if ¬ (currentPrice > cfg.StopLossPrice + cfg.StopLossAdjustment) then
    (highestPrice, cfg.StopLossPrice)
  else if highestPrice = 0 ∨ currentPrice > highestPrice + cfg.StopLossAdjustment then
    (currentPrice, currentPrice - cfg.StopLossAdjustment)
  else if highestPrice > cfg.StopLossPrice + cfg.StopLossAdjustment then
    (highestPrice, max (highestPrice - cfg.StopLossAdjustment) cfg.StopLossPrice)
  else
    (highestPrice, cfg.StopLossPrice)

/-- A sample configuration with dynamic stop loss disabled (the numeric
values match the literal config in `main.go`, with `DynamicStopLoss`
switched off). -/
def cfgFixed : Config :=
  { StopLossPrice := 130
    MinimumSOL := 1/10
    RetryAttempts := 3
    RetryDelay := 2
    CheckInterval := 2
    DynamicStopLoss := false
    StopLossAdjustment := 5 }

/-- The configuration of the end-to-end scenario B of the spec (also the
literal config built in `main.go`): initial threshold 130, trail gap 5,
dynamic mode on. -/
def cfgScenarioB : Config :=
  { StopLossPrice := 130
    MinimumSOL := 1/10
    RetryAttempts := 3
    RetryDelay := 2
    CheckInterval := 2
    DynamicStopLoss := true
    StopLossAdjustment := 5 }

/-- One call to `calculateDynamicStopLoss` never returns an effective
stop loss below the configured `StopLossPrice`, whatever the state. -/
theorem calculateDynamicStopLoss_snd_ge (cfg : Config) (hp p : ℚ) :
    cfg.StopLossPrice ≤ (calculateDynamicStopLoss cfg hp p).2 := by
  unfold calculateDynamicStopLoss
  split_ifs with h1 h2 h3 h4 <;> (try simp only []) <;> (try split_ifs with h5) <;>
    (try dsimp only) <;> linarith

/-- C1: For every sequence of price inputs fed to
`calculateDynamicStopLoss`, every effective threshold it returns along
the run is at least the configured initial threshold `StopLossPrice`,
for any starting `HighestPrice` state and whether or not dynamic mode
is enabled. -/
theorem effectiveThreshold_ge_initial (cfg : Config) (hp : ℚ) (ps : List ℚ) :
    ∀ t ∈ runThresholds cfg hp ps, cfg.StopLossPrice ≤ t := by
  induction ps generalizing hp with
  | nil => simp [runThresholds]
  | cons p ps ih =>
    intro t ht
    simp only [runThresholds, List.mem_cons] at ht
    rcases ht with rfl | ht
    · exact calculateDynamicStopLoss_snd_ge cfg hp p
    · exact ih _ t ht

/-- Witness for C1 at a concrete input: with the fixed-stop-loss
configuration, the single threshold produced for price 100 is 130,
which is at least the initial threshold 130. -/
theorem effectiveThreshold_ge_initial_witness : (130 : ℚ) ≤ 130 :=
  effectiveThreshold_ge_initial cfgFixed 0 [100] 130
    (by simp [runThresholds, calculateDynamicStopLoss, cfgFixed])

/-- C2: `calculateDynamicStopLoss` implements exactly the case analysis
of the specification: disabled → initial threshold with unchanged
state; price not above `StopLossPrice + StopLossAdjustment` → initial
threshold; above it with `HighestPrice = 0` or a new high beyond the
gap → record the price and return `price - StopLossAdjustment`;
otherwise `max (HighestPrice - StopLossAdjustment) StopLossPrice` when
`HighestPrice > StopLossPrice + StopLossAdjustment`, else the initial
threshold. -/
theorem calculateDynamicStopLoss_eq_spec (cfg : Config) (hp p : ℚ) :
    calculateDynamicStopLoss cfg hp p = specThresholdUpdate cfg hp p := by
  unfold calculateDynamicStopLoss specThresholdUpdate
  split_ifs with h1 h2 h3 h4 <;> simp only []
  split_ifs with h5
  · rw [max_eq_left h5.le]
  · push_neg at h5
    rw [max_eq_right h5]

/-- C3: the decision logic of `monitorAndSwap` is deterministic and
exhaustive: it emits `swapAtoB` iff the position is `InSOL` and
`price < threshold`, emits `swapBtoA` iff the position is `InUSDC` and
`price > threshold`, and in every other case — including price exactly
equal to the threshold — takes no action. -/
theorem decideSwap_characterization (pos : PositionState) (price thr : ℚ) :
    (decideSwap pos price thr = SwapAction.swapAtoB ↔ pos = InSOL ∧ price < thr) ∧
    (decideSwap pos price thr = SwapAction.swapBtoA ↔ pos = InUSDC ∧ price > thr) ∧
    ((¬ (pos = InSOL ∧ price < thr) ∧ ¬ (pos = InUSDC ∧ price > thr)) →
      decideSwap pos price thr = SwapAction.noAction) ∧
    decideSwap pos thr thr = SwapAction.noAction := by
  refine ⟨?_, ?_, ?_, ?_⟩
  · unfold decideSwap
    split_ifs with h1 h2 <;> simp_all
  · unfold decideSwap
    split_ifs with h1 h2 <;> simp_all
  · intro h
    unfold decideSwap
    split_ifs with h1 h2 <;> simp_all
  · unfold decideSwap
    split_ifs with h1 h2
    · exact absurd h1.2 (lt_irrefl thr)
    · exact absurd h2.2 (lt_irrefl thr)
    · rfl

/-- Witness for C3 at a concrete input: holding SOL with price 1 below
threshold 2 emits the SOL→USDC swap. -/
theorem decideSwap_characterization_witness :
    decideSwap InSOL 1 2 = SwapAction.swapAtoB :=
  (decideSwap_characterization InSOL 1 2).1.mpr ⟨rfl, by norm_num⟩

/-- Unfolding equation for `retryGo` at a positive remaining count. -/
theorem retryGo_succ (op : ℕ → Bool × ℕ) (a r : ℕ) :
    retryGo op a (r + 1) =
      (let (ok, c) := op a
       if ok then ⟨true, 1, 0, c⟩
       else if r = 0 then ⟨false, 1, 0, c⟩
       else
         let rest := retryGo op (a + 1) r
         ⟨rest.success, rest.attempts + 1, rest.sleeps + 1, rest.calls + c⟩) := rfl

/-- Unfolding equation for `retryGoWithCancel` at a positive remaining
count. -/
theorem retryGoWithCancel_succ (op : ℕ → Bool × ℕ) (cancel : ℕ → Bool) (a r : ℕ) :
    retryGoWithCancel op cancel a (r + 1) =
      (let (ok, c) := op a
       if ok then ⟨true, 1, 0, c⟩
       else if r = 0 then ⟨false, 1, 0, c⟩
       else
         let rest := retryGoWithCancel op cancel (a + 1) r
         ⟨rest.success, rest.attempts + 1, rest.sleeps + 1, rest.calls + c⟩) := rfl

/-- If every attempt the loop can reach fails without making executor
calls, the retry loop performs all `n` attempts, sleeps only between
them (`n - 1` sleeps), makes no executor call, and reports failure. -/
theorem retryGo_all_fail (op : ℕ → Bool × ℕ) :
    ∀ n a, (∀ i, a ≤ i → i < a + n → op i = (false, 0)) →
      retryGo op a n = ⟨false, n, n - 1, 0⟩ := by
  intro n
  induction n with
  | zero => exact fun a _ => rfl
  | succ r ih =>
    intro a h
    have hopa : op a = (false, 0) := h a le_rfl (by omega)
    rw [retryGo_succ, hopa]
    cases r with
    | zero => rfl
    | succ s =>
      have hrest := ih (a + 1) (fun i h1 h2 => h i (by omega) (by omega))
      rw [hrest]
      rfl

/-- If the first `j` attempts fail and attempt `a + j` succeeds (all
without executor calls), and `j < n` attempts remain, the retry loop
stops right at the first success: `j + 1` attempts, `j` sleeps. -/
theorem retryGo_first_success (op : ℕ → Bool × ℕ) :
    ∀ j n a, (∀ i, a ≤ i → i < a + j → op i = (false, 0)) →
      op (a + j) = (true, 0) → j < n →
      retryGo op a n = ⟨true, j + 1, j, 0⟩ := by
  intro j
  induction j with
  | zero =>
    intro n a _ hsucc hlt
    cases n with
    | zero => omega
    | succ r =>
      have hsucc' : op a = (true, 0) := hsucc
      rw [retryGo_succ, hsucc']
      rfl
  | succ k ih =>
    intro n a hfail hsucc hlt
    cases n with
    | zero => omega
    | succ r =>
      have hopa : op a = (false, 0) := hfail a le_rfl (by omega)
      rw [retryGo_succ, hopa]
      cases r with
      | zero => omega
      | succ s =>
        have hsucc' : op (a + 1 + k) = (true, 0) := by
          rw [show a + 1 + k = a + (k + 1) by omega]
          exact hsucc
        have hrest := ih (s + 1) (a + 1)
          (fun i h1 h2 => hfail i (by omega) (by omega)) hsucc' (by omega)
        rw [hrest]
        rfl

/-- C4: for an operation that fails on its first `k` invocations and
succeeds on invocation `k + 1`, the retry loop of
`swapSOLToUSDC`/`swapUSDCToSOL` with `RetryAttempts = n` stops at the
first success after exactly `k + 1` attempts (with `k` inter-attempt
sleeps) when `k < n`, and reports a terminal failure after exactly `n`
attempts (with `n - 1` sleeps — never one after the final failed
attempt) when `k ≥ n`. -/
theorem retry_policy (k n : ℕ) :
    (k < n → retryGo (failsThenSucceeds k) 1 n = ⟨true, k + 1, k, 0⟩) ∧
    (n ≤ k → retryGo (failsThenSucceeds k) 1 n = ⟨false, n, n - 1, 0⟩) := by
  constructor
  · intro hlt
    apply retryGo_first_success
    · intro i h1 h2
      simp only [failsThenSucceeds, Prod.mk.injEq, decide_eq_false_iff_not, not_lt,
        and_true]
      omega
    · simp only [failsThenSucceeds, Prod.mk.injEq, decide_eq_true_eq, and_true]
      omega
    · exact hlt
  · intro hle
    apply retryGo_all_fail
    intro i h1 h2
    simp only [failsThenSucceeds, Prod.mk.injEq, decide_eq_false_iff_not, not_lt,
      and_true]
    omega

/-- Witness for C4 at concrete inputs: with 3 configured attempts an
operation failing once then succeeding finishes successfully after 2
attempts and 1 sleep; with 2 configured attempts an operation failing 3
times exhausts both attempts, sleeps once, and fails. -/
theorem retry_policy_witness :
    retryGo (failsThenSucceeds 1) 1 3 = ⟨true, 2, 1, 0⟩ ∧
    retryGo (failsThenSucceeds 3) 1 2 = ⟨false, 2, 1, 0⟩ :=
  ⟨(retry_policy 1 3).1 (by norm_num), (retry_policy 3 2).2 (by norm_num)⟩

/-- Sanity link between the extracted decision function and the cycle:
when `decideSwap` (applied to the effective stop loss the cycle
computes) yields `noAction`, `monitorAndSwap` leaves the position
unchanged and reports no error. -/
theorem monitorAndSwap_follows_decideSwap (cfg : Config) (hp : ℚ)
    (pos : PositionState) (price : ℚ) (opA opB : ℕ → Bool × ℕ)
    (h : decideSwap pos price (calculateDynamicStopLoss cfg hp price).2 =
      SwapAction.noAction) :
    monitorAndSwap cfg hp pos price opA opB =
      ((calculateDynamicStopLoss cfg hp price).1, pos, false) := by
  unfold monitorAndSwap decideSwap at *
  simp only [] at h ⊢
  split_ifs at h ⊢ <;> simp_all

/-- C5: `monitorAndSwap` commits the position only after the
retry-wrapped swap reports success: a cycle that returns an error
leaves the position unchanged, and whenever the position does change
the cycle reported no error and the corresponding retry-wrapped swap
succeeded (SOL→USDC when holding SOL, USDC→SOL when holding USDC). -/
theorem position_committed_only_on_success (cfg : Config) (hp : ℚ)
    (pos : PositionState) (price : ℚ) (opA opB : ℕ → Bool × ℕ) :
    ((monitorAndSwap cfg hp pos price opA opB).2.2 = true →
      (monitorAndSwap cfg hp pos price opA opB).2.1 = pos) ∧
    ((monitorAndSwap cfg hp pos price opA opB).2.1 ≠ pos →
      (monitorAndSwap cfg hp pos price opA opB).2.2 = false ∧
      ((pos = InSOL ∧ (retryGo opA 1 cfg.RetryAttempts).success = true ∧
          (monitorAndSwap cfg hp pos price opA opB).2.1 = InUSDC) ∨
        (pos = InUSDC ∧ (retryGo opB 1 cfg.RetryAttempts).success = true ∧
          (monitorAndSwap cfg hp pos price opA opB).2.1 = InSOL))) := by
  unfold monitorAndSwap
  simp only []
  split_ifs with h1 h2 h3 h4 <;> simp_all

/-- Witness for C5 at a concrete input: holding SOL at price 100 below
the fixed stop loss 130, with every execution attempt failing, the
cycle errors and the position stays `InSOL`. -/
theorem position_committed_only_on_success_witness :
    (monitorAndSwap cfgFixed 0 InSOL 100 (fun _ => (false, 0))
        (fun _ => (false, 0))).2.1 = InSOL :=
  (position_committed_only_on_success cfgFixed 0 InSOL 100 _ _).1
    (by norm_num [monitorAndSwap, calculateDynamicStopLoss, cfgFixed, retryGo])

/-- One step of `calculateDynamicStopLoss` never decreases a positive
`HighestPrice` state (given the configured gap is non-negative), and
keeps it positive. -/
theorem calculateDynamicStopLoss_fst_mono (cfg : Config)
    (hadj : 0 ≤ cfg.StopLossAdjustment) (hp p : ℚ) (hhp : 0 < hp) :
    hp ≤ (calculateDynamicStopLoss cfg hp p).1 ∧
      0 < (calculateDynamicStopLoss cfg hp p).1 := by
  unfold calculateDynamicStopLoss
  split_ifs with h1 h2 h3 <;> (try simp only []) <;> (try split_ifs with h5) <;>
    (try dsimp only) <;> constructor <;> try linarith
  · rcases h3 with h3 | h3 <;> linarith
  · rcases h3 with h3 | h3 <;> linarith

/-- C6: once the tracked `HighestPrice` is non-zero (hence positive,
prices being non-negative by the caller contract), it never decreases
across any subsequent sequence of `calculateDynamicStopLoss` calls,
whatever prices are observed — assuming the configured trail gap
`StopLossAdjustment` is non-negative, as the configuration contract
requires. -/
theorem highestPrice_monotone (cfg : Config)
    (hadj : 0 ≤ cfg.StopLossAdjustment) (hp : ℚ) (hhp : 0 < hp)
    (ps : List ℚ) : hp ≤ runHighest cfg hp ps := by
  induction ps generalizing hp with
  | nil => simp [runHighest]
  | cons p ps ih =>
    have hstep := calculateDynamicStopLoss_fst_mono cfg hadj hp p hhp
    calc hp ≤ (calculateDynamicStopLoss cfg hp p).1 := hstep.1
      _ ≤ runHighest cfg (calculateDynamicStopLoss cfg hp p).1 ps :=
        ih _ hstep.2
      _ = runHighest cfg hp (p :: ps) := rfl

/-- Witness for C6 at concrete inputs: in the scenario-B configuration,
a recorded high of 136 does not decrease when price 100 is observed. -/
theorem highestPrice_monotone_witness :
    (136 : ℚ) ≤ runHighest cfgScenarioB 136 [100] :=
  highestPrice_monotone cfgScenarioB (by norm_num [cfgScenarioB]) 136
    (by norm_num) [100]

/-- C8 counterexample: an always-failing execution with
`RetryAttempts = 3` and cancellation signaled during the first
inter-retry delay still performs all 3 attempts — the claim, which
requires that no further retry attempt occur after cancellation (so at
most the 1 attempt already made), is false at this input. -/
theorem cancel_during_delay_counterexample :
    (retryGoWithCancel (fun _ => (false, 0)) (fun i => decide (i = 1))
        1 3).attempts = 3 ∧ (3 : ℕ) ≠ 1 :=
  ⟨rfl, by omega⟩

/-- C8 amended: the inter-retry delay of the retry loop is a plain
`time.Sleep` that never consults the cancellation context, so the
cancellation schedule has no effect whatsoever on the loop: its outcome
equals that of the schedule-free loop for every schedule, and in
particular the remaining retries still occur; cancellation is only
observed later, at the next tick boundary of the monitoring loop, and a
failed wrapper commits no position change. -/
theorem cancel_schedule_no_effect (op : ℕ → Bool × ℕ) (cancel : ℕ → Bool) :
    ∀ r a, retryGoWithCancel op cancel a r = retryGo op a r := by
  intro r
  induction r with
  | zero => intro a; rfl
  | succ s ih =>
    intro a
    rw [retryGoWithCancel_succ, retryGo_succ, ih (a + 1)]

/-- A single `executeSOLToUSDCSwap` attempt with a non-positive
swappable amount fails locally with no Jupiter executor call. -/
theorem executeSOLToUSDCSwap_insufficient (cfg : Config) (bal : ℚ)
    (jup : Bool) (h : bal - cfg.MinimumSOL ≤ 0) :
    executeSOLToUSDCSwap cfg (Except.ok bal) jup = (false, 0) := by
  unfold executeSOLToUSDCSwap
  simp only []
  rw [if_pos h]

/-- C7 counterexample: with `MinimumSOL = 1/10`, a SOL balance of
`1/20` on every attempt and `RetryAttempts = 3`, `swapSOLToUSDC` indeed
makes no Jupiter call, but it performs all 3 attempts — retrying the
local precondition failure — and ends in an error, contradicting the
claimed "no retry attempted ... treated as a no-op, not an error". -/
theorem insufficient_balance_counterexample :
    swapSOLToUSDC cfgScenarioB (fun _ => Except.ok (1/20)) (fun _ => true) =
      ⟨false, 3, 2, 0⟩ ∧ (3 : ℕ) ≠ 1 := by
  constructor
  · unfold swapSOLToUSDC
    exact retryGo_all_fail _ 3 1 (fun i _ _ =>
      executeSOLToUSDCSwap_insufficient cfgScenarioB (1/20) true
        (by norm_num [cfgScenarioB]))
  · omega

/-- C7 amended: when the SOL balance minus `MinimumSOL` is non-positive
on every attempt, each `executeSOLToUSDCSwap` attempt fails locally
without any Jupiter executor call, but the failure is an ordinary error
to the retry wrapper, which performs all `RetryAttempts` attempts
(sleeping between them) and returns a terminal error; in total zero
executor calls are made. -/
theorem insufficient_balance_behaviour (cfg : Config) (bal : ℕ → ℚ)
    (jup : ℕ → Bool) (h : ∀ a, bal a - cfg.MinimumSOL ≤ 0) :
    swapSOLToUSDC cfg (fun a => Except.ok (bal a)) jup =
      ⟨false, cfg.RetryAttempts, cfg.RetryAttempts - 1, 0⟩ := by
  unfold swapSOLToUSDC
  exact retryGo_all_fail _ cfg.RetryAttempts 1 (fun i _ _ =>
    executeSOLToUSDCSwap_insufficient cfg (bal i) (jup i) (h i))

/-- Witness for the amended statement of C7: the scenario-C numbers
(`MinimumSOL = 1/10`, balance `1/20`, 3 retries) give 3 failed
attempts, 2 sleeps, no Jupiter call. -/
theorem insufficient_balance_behaviour_witness :
    swapSOLToUSDC cfgScenarioB (fun _ => Except.ok ((1 : ℚ)/20))
        (fun _ => false) = ⟨false, 3, 2, 0⟩ :=
  insufficient_balance_behaviour cfgScenarioB (fun _ => (1 : ℚ)/20)
    (fun _ => false) (fun _ => by norm_num [cfgScenarioB])

/-- C9 counterexample: in the scenario-B configuration (initial
threshold 130, gap 5, dynamic mode on, `HighestPrice` starting at 0)
the price sequence `[136, 142, 150, 143]` does not produce the claimed
thresholds `[130, 137, 145, 145]` — the first call already records 136
as the high and returns `136 - 5 = 131`, not 130. -/
theorem scenarioB_claim_counterexample :
    runThresholds cfgScenarioB 0 [136, 142, 150, 143] ≠ [130, 137, 145, 145] := by
  norm_num [runThresholds, calculateDynamicStopLoss, cfgScenarioB]

/-- C9 amended: with initial threshold 130, trail gap 5 and dynamic
mode enabled, the price sequence `[136, 142, 150, 143]` yields the
effective thresholds `[131, 137, 145, 145]`: every price above
`130 + 5` that is a new high beyond the gap moves the threshold to
`price - 5`, and 145 persists because 143 is not a new high beyond the
gap. -/
theorem scenarioB_thresholds :
    runThresholds cfgScenarioB 0 [136, 142, 150, 143] = [131, 137, 145, 145] := by
  norm_num [runThresholds, calculateDynamicStopLoss, cfgScenarioB]

/-- C10: in `determineCurrentPosition`, an error from the USDC balance
query is swallowed — the function returns `InSOL` with no error — while
an error from the SOL balance query aborts startup; whenever the SOL
query succeeds the function cannot fail. -/
theorem determineCurrentPosition_error_handling (b : ℚ)
    (u : Except Unit (Option ℚ)) (v : Option ℚ) :
    determineCurrentPosition (Except.ok b) (Except.error ()) = Except.ok InSOL ∧
    determineCurrentPosition (Except.error ()) u = Except.error () ∧
    ∃ p, determineCurrentPosition (Except.ok b) (Except.ok v) = Except.ok p := by
  refine ⟨rfl, rfl, ?_⟩
  unfold determineCurrentPosition
  simp only []
  split_ifs with h
  · exact ⟨InUSDC, rfl⟩
  · exact ⟨InSOL, rfl⟩

end SolCycle
